import Mathlib

/-!
Shallow embedding of the coloring-page generator (src/app/main.cpp) and
verification of its specification claims.

The program keeps a working raster (`coloringPage`, a cv::Mat), a history of
raster snapshots (`coloringPageHistory`, a std::vector of cloned cv::Mat), a
current fill color, a fill-tool flag, and pointer-gesture state.  Pixels are
modelled as RGB triples of naturals, rasters as row-major lists of rows, and
CV_8U masks as lists of rows of naturals where nonzero means "set".
-/

/-- Pixel value of a 3-channel (CV_8UC3 / RGB888) raster: an RGB triple. -/
abbrev Pixel := Nat × Nat × Nat

/-- Raster: a dense 2-D grid of pixels, row-major (cv::Mat of CV_8UC3). -/
abbrev Raster := List (List Pixel)

/-- Mask: a 1-channel (CV_8U) raster; a pixel is "set" when nonzero. -/
abbrev Mask := List (List Nat)

/-- Number of columns of a raster (cv::Mat::cols); 0 for the empty raster. -/
def rasterWidth (r : Raster) : Nat := (r.getD 0 []).length

/-- Pixel read with out-of-range default, matching in-range cv::Mat access. -/
def getPixel (r : Raster) (i j : Nat) : Pixel := (r.getD i []).getD j (0, 0, 0)

/-- Mask entry read with out-of-range default 0 (unset). -/
def getM (m : Mask) (i j : Nat) : Nat := (m.getD i []).getD j 0

/-- Constant raster, as built by the cv::Mat(size, type, scalar) constructor
(line 241 of main.cpp builds an all-white page this way). -/
def mkRaster (w h : Nat) (c : Pixel) : Raster :=
  List.replicate h (List.replicate w c)

/-- Elementwise cv::bitwise_and of two CV_8U masks (line 239 of main.cpp). -/
def bitwiseAnd (a b : Mask) : Mask :=
  List.zipWith (List.zipWith Nat.land) a b

/-- The cv::Mat::setTo(value, mask) operation: overwrite with `c` every pixel
whose mask entry is nonzero (line 242 of main.cpp). -/
def setTo (r : Raster) (c : Pixel) (mask : Mask) : Raster :=
  List.zipWith (fun row mrow =>
    List.zipWith (fun v m => if m ≠ 0 then c else v) row mrow) r mask

/-- Final rendering stage of generateColoringPage, lines 232-242 of main.cpp:
the filled/closed contour mask is intersected into the gray outline raster
(cv::bitwise_and, line 239), but line 241 then reassigns `coloringPage` to a
fresh all-white 3-channel page and line 242 paints black exactly where the raw
adaptive-threshold mask `binaryImage` is set.  The intersected raster from
line 239 is therefore dead: it is computed and immediately discarded. -/
def renderFinalOutput (w h : Nat) (outlineRaster contourMask binaryImage : Mask) :
    Raster :=
  let intersected := bitwiseAnd outlineRaster contourMask
  let _ := intersected
  let page := mkRaster w h (255, 255, 255)
  setTo page (0, 0, 0) binaryImage

/-- Rendering as the specification words it (steps 7-8 of the pipeline): black
exactly on the intersection of the raw threshold mask with the filled-and-closed
contour mask, white elsewhere.  Stated from the spec's words, to be compared
with `renderFinalOutput`, which is translated from the source. -/
def renderSpecIntersection (w h : Nat) (binaryImage contourMask : Mask) : Raster :=
  (List.range h).map fun i => (List.range w).map fun j =>
    if getM binaryImage i j ≠ 0 ∧ getM contourMask i j ≠ 0
    then ((0, 0, 0) : Pixel) else (255, 255, 255)

/-- Target output size computed by generateColoringPage, lines 193-202 of
main.cpp.  The C++ works with `double aspectRatio = cols / rows` and truncating
int casts; for nonnegative values the casts are floors, so the exact-rational
semantics coincides with natural division: `newWidth / aspectRatio` is
`newWidth * rows / cols` and `newHeight * aspectRatio` is
`newHeight * cols / rows`. -/
def computeTargetSize (cols rows maxWidth maxHeight : Nat) : Nat × Nat :=
  let newWidth := maxWidth
  let newHeight := newWidth * rows / cols
  if maxHeight < newHeight then (maxHeight * cols / rows, maxHeight)
  else (newWidth, newHeight)

/-- One expansion step of the flood region: a pixel joins the region when it is
in bounds, has the seed's color, and touches a region pixel through one of its
4-neighbors.  This is the semantics of cv::floodFill with the default zero
loDiff/upDiff and 4-connectivity used on line 142 of main.cpp: the region grown
from the seed consists of connected pixels equal to the seed's value. -/
def floodStep (r : Raster) (seedc : Pixel) (S : Nat → Nat → Bool) :
    Nat → Nat → Bool :=
  fun i j =>
    S i j ||
      (decide (i < r.length) && decide (j < rasterWidth r) &&
        decide (getPixel r i j = seedc) &&
        (S (i + 1) j || S i (j + 1) ||
          (decide (0 < i) && S (i - 1) j) || (decide (0 < j) && S i (j - 1))))

/-- Iterated region expansion. -/
def floodIter (r : Raster) (seedc : Pixel) :
    Nat → (Nat → Nat → Bool) → Nat → Nat → Bool
  | 0, S => S
  | n + 1, S => floodIter r seedc n (floodStep r seedc S)

/-- Flood-reachable region of the seed at row `i0`, column `j0`: the expansion
step iterated enough times (`rows * cols`, the longest possible path) starting
from the seed alone. -/
def floodRegion (r : Raster) (i0 j0 : Nat) : Nat → Nat → Bool :=
  floodIter r (getPixel r i0 j0) (r.length * rasterWidth r)
    (fun i j => decide (i = i0) && decide (j = j0))

/-- Recolor one row: cells whose column index is in the region become `c`. -/
def applyFillRow (c : Pixel) (S : Nat → Bool) : List Pixel → Nat → List Pixel
  | [], _ => []
  | v :: vs, j => (if S j then c else v) :: applyFillRow c S vs (j + 1)

/-- Recolor all rows from row index `i` on. -/
def applyFillRows (c : Pixel) (S : Nat → Nat → Bool) :
    List (List Pixel) → Nat → List (List Pixel)
  | [], _ => []
  | row :: rest, i => applyFillRow c (S i) row 0 :: applyFillRows c S rest (i + 1)

/-- Recolor the region `S` of raster `r` with color `c`. -/
def applyFill (r : Raster) (S : Nat → Nat → Bool) (c : Pixel) : Raster :=
  applyFillRows c S r 0

/-- Model of cv::floodFill as invoked on line 142 of main.cpp (fresh zero mask
of size (rows+2)×(cols+2), default flags: 4-connectivity, zero tolerance).
OpenCV validates that the seed lies inside the image before touching any pixel
and raises cv::Exception otherwise; on success it recolors the flood-reachable
region of the seed with the new color. -/
def floodFill (r : Raster) (x y : Int) (c : Pixel) : Except String Raster :=
  if 0 ≤ x ∧ x < (rasterWidth r : Int) ∧ 0 ≤ y ∧ y < (r.length : Int) then
    Except.ok (applyFill r (floodRegion r y.toNat x.toNat) c)
  else
    Except.error "Seed point is outside of image"

/-- Integer points of the straight segment from `(x0, y0)` to `(x1, y1)`.
Modelled from the spec: "draws a straight segment between each consecutive
pair directly onto the working raster" — QPainter::drawLine (Qt library code,
line 121 of main.cpp) is not part of this repository; its exact pixel coverage
is irrelevant to every claim, only that it touches the working raster and
nothing else. -/
def linePoints (x0 y0 x1 y1 : Int) : List (Int × Int) :=
  let n := max (x1 - x0).natAbs (y1 - y0).natAbs
  (List.range (n + 1)).map fun k =>
    (x0 + (x1 - x0) * k / n, y0 + (y1 - y0) * k / n)

/-- Write one pixel if it is inside the raster; no-op outside. -/
def setPixel (r : Raster) (p : Int × Int) (c : Pixel) : Raster :=
  if 0 ≤ p.1 ∧ 0 ≤ p.2 then
    r.set p.2.toNat ((r.getD p.2.toNat []).set p.1.toNat c)
  else r

/-- Draw the straight segment from `p` to `q` in color `c` onto raster `r`. -/
def drawLineOn (r : Raster) (p q : Int × Int) (c : Pixel) : Raster :=
  (linePoints p.1 p.2 q.1 q.2).foldl (fun acc pt => setPixel acc pt c) r

/-- State of the ColoringPageGenerator window (fields of the class, lines
298-307 of main.cpp).  `drawingImage` is a QImage* sharing the pixel buffer of
`coloringPage`; it is `none` while no photo has been loaded (nullptr, line 92)
and otherwise holds the raster it views.  `coloringPageHistory` is the vector
of cloned snapshots; cloning is value semantics here, so deep copies are plain
values. -/
structure ColoringPageGenerator where
  drawingImage : Option Raster
  drawing : Bool
  lastPoint : Int × Int
  coloringPage : Raster
  coloringPageHistory : List Raster
  fillColor : Pixel
  fillToolEnabled : Bool
deriving DecidableEq

/-- Constructor state, lines 92-93 of main.cpp: no drawing image (nullptr), not
drawing, empty working Mat and empty history.  `fillColor` (default QColor) and
`fillToolEnabled` (left uninitialized in the source) are given concrete values
that no theorem depends on. -/
def initialGenerator : ColoringPageGenerator :=
  { drawingImage := none
    drawing := false
    lastPoint := (0, 0)
    coloringPage := []
    coloringPageHistory := []
    fillColor := (0, 0, 0)
    fillToolEnabled := false }

/-- ColoringPageGenerator::addToColoringPageHistory, lines 309-311 of main.cpp:
push_back of a clone of the page. -/
def addToColoringPageHistory (st : ColoringPageGenerator) (page : Raster) :
    ColoringPageGenerator :=
  { st with coloringPageHistory := st.coloringPageHistory ++ [page] }

/-- ColoringPageGenerator::setFillColor, lines 281-283 of main.cpp. -/
def setFillColor (st : ColoringPageGenerator) (c : Pixel) :
    ColoringPageGenerator :=
  { st with fillColor := c }

/-- ColoringPageGenerator::toggleFillTool, lines 285-287 of main.cpp. -/
def toggleFillTool (st : ColoringPageGenerator) (checked : Bool) :
    ColoringPageGenerator :=
  { st with fillToolEnabled := checked }

/-- ColoringPageGenerator::undoLastAction, lines 289-296 of main.cpp: when more
than one snapshot exists, pop_back, then clone the new back into the working
raster and refresh the QImage view.  The guard makes the popped history
nonempty, so the `getLastD` default is never consulted. -/
def undoLastAction (st : ColoringPageGenerator) : ColoringPageGenerator :=
  if 1 < st.coloringPageHistory.length then
    let rest := st.coloringPageHistory.dropLast
    let top := rest.getLastD st.coloringPage
    { st with coloringPageHistory := rest
              coloringPage := top
              drawingImage := some top }
  else st

/-- ColoringPageGenerator::mousePressEvent, lines 108-113 of main.cpp. -/
def mousePressEvent (st : ColoringPageGenerator) (leftButton : Bool)
    (pos : Int × Int) : ColoringPageGenerator :=
  if leftButton && st.drawingImage.isSome then
    { st with drawing := true, lastPoint := pos }
  else st

/-- ColoringPageGenerator::mouseReleaseEvent, lines 128-132 of main.cpp. -/
def mouseReleaseEvent (st : ColoringPageGenerator) (leftButton : Bool) :
    ColoringPageGenerator :=
  if leftButton && st.drawingImage.isSome then
    { st with drawing := false }
  else st

/-- ColoringPageGenerator::mouseMoveEvent, lines 115-126 of main.cpp: while
dragging with a loaded image, if the point is inside the drawing area (whose
rect equals the raster dimensions after setFixedSize), paint the segment from
`lastPoint` onto `drawingImage` — which shares its buffer with `coloringPage`,
so the working raster is what changes — and advance `lastPoint`.  No history
interaction. -/
def mouseMoveEvent (st : ColoringPageGenerator) (pos : Int × Int) :
    ColoringPageGenerator :=
  if st.drawing && st.drawingImage.isSome &&
      decide (0 ≤ pos.1) && decide (pos.1 < (rasterWidth st.coloringPage : Int)) &&
      decide (0 ≤ pos.2) && decide (pos.2 < (st.coloringPage.length : Int)) then
    let page := drawLineOn st.coloringPage st.lastPoint pos st.fillColor
    { st with coloringPage := page
              lastPoint := pos
              drawingImage := some page }
  else st

/-- ColoringPageGenerator::mouseDoubleClickEvent, lines 134-153 of main.cpp:
with a loaded image and the fill tool enabled, flood fill the working raster at
the event point with the current fill color; on success refresh the QImage view
and commit a clone to the history; on a cv::Exception show the error dialog
text (returned here as the second component) and change nothing. -/
def mouseDoubleClickEvent (st : ColoringPageGenerator) (pos : Int × Int) :
    ColoringPageGenerator × Option String :=
  if st.drawingImage.isSome && st.fillToolEnabled then
    match floodFill st.coloringPage pos.1 pos.2 st.fillColor with
    | Except.ok page =>
        (addToColoringPageHistory
          { st with coloringPage := page, drawingImage := some page } page,
         none)
    | Except.error e => (st, some ("Failed to perform flood fill: " ++ e))
  else (st, none)

/-- State effect of ColoringPageGenerator::generateColoringPage, lines 183-261
of main.cpp, on a successful run.  The parameter `page` stands for the raster
computed by the pipeline on lines 184-253 (resize, threshold, closing, contour
post-processing, final render — `renderFinalOutput` — and gap inpainting);
lines 255-257 then commit a clone to the history and point `drawingImage` at
the result.  The history is only ever appended to: nothing in the function
clears `coloringPageHistory`. -/
def generateColoringPage (st : ColoringPageGenerator) (page : Raster) :
    ColoringPageGenerator :=
  { addToColoringPageHistory { st with coloringPage := page } page with
      drawingImage := some page }

/-- Fold a sequence of pointer-move samples (one drag gesture) through
`mouseMoveEvent`. -/
def applyMoves (st : ColoringPageGenerator) :
    List (Int × Int) → ColoringPageGenerator
  | [] => st
  | p :: ps => applyMoves (mouseMoveEvent st p) ps

/-- Sample state after a photo has been loaded: one baseline snapshot, fill
tool armed.  Used as a concrete input by several witnesses. -/
def loadedState : ColoringPageGenerator :=
  { drawingImage := some [[(1, 2, 3)]]
    drawing := false
    lastPoint := (0, 0)
    coloringPage := [[(1, 2, 3)]]
    coloringPageHistory := [[[(1, 2, 3)]]]
    fillColor := (9, 9, 9)
    fillToolEnabled := true }

/-- Sample state after a load and one committed fill: two snapshots. -/
def twoSnapshotState : ColoringPageGenerator :=
  { drawingImage := some [[(2, 2, 2)]]
    drawing := true
    lastPoint := (0, 0)
    coloringPage := [[(2, 2, 2)]]
    coloringPageHistory := [[[(1, 1, 1)]], [[(2, 2, 2)]]]
    fillColor := (9, 9, 9)
    fillToolEnabled := true }

/-- Last element of a nonempty list does not depend on the `getLastD`
default. -/
theorem getLast?_eq_getLastD {α : Type _} (l : List α) (d : α) (h : l ≠ []) :
    l.getLast? = some (l.getLastD d) := by
  induction l generalizing d with
  | nil => exact absurd rfl h
  | cons a t ih =>
    cases t with
    | nil => rfl
    | cons b t2 =>
      rw [List.getLast?_cons_cons, List.getLastD_cons]
      exact ih a (by simp)

/-- The `getLastD` of a nonempty list is independent of the default. -/
theorem getLastD_congr {α : Type _} (l : List α) (d1 d2 : α) (h : l ≠ []) :
    l.getLastD d1 = l.getLastD d2 := by
  have h1 := getLast?_eq_getLastD l d1 h
  have h2 := getLast?_eq_getLastD l d2 h
  rw [h1] at h2
  exact Option.some.inj h2

/-- A pointer-move event never touches the history vector. -/
theorem mouseMoveEvent_history (st : ColoringPageGenerator) (q : Int × Int) :
    (mouseMoveEvent st q).coloringPageHistory = st.coloringPageHistory := by
  unfold mouseMoveEvent
  split <;> rfl

/-- A whole drag gesture never touches the history vector. -/
theorem applyMoves_history (st : ColoringPageGenerator)
    (ps : List (Int × Int)) :
    (applyMoves st ps).coloringPageHistory = st.coloringPageHistory := by
  induction ps generalizing st with
  | nil => rfl
  | cons p ps ih =>
    show (applyMoves (mouseMoveEvent st p) ps).coloringPageHistory = _
    rw [ih, mouseMoveEvent_history]

/-- A double-click either leaves the history alone or appends one snapshot. -/
theorem mouseDoubleClickEvent_history (st : ColoringPageGenerator)
    (q : Int × Int) :
    ((mouseDoubleClickEvent st q).1).coloringPageHistory =
        st.coloringPageHistory ∨
      ∃ page, ((mouseDoubleClickEvent st q).1).coloringPageHistory =
        st.coloringPageHistory ++ [page] := by
  unfold mouseDoubleClickEvent
  split
  · split
    · exact Or.inr ⟨_, rfl⟩
    · exact Or.inl rfl
  · exact Or.inl rfl


/-- C7: the target output size computed on lines 193-202 preserves the photo's
aspect ratio (up to the truncating integer casts the code performs: the
dependent axis is the floor of the exact aspect-scaled value), fits within the
canvas bound on both axes, and in particular any upscale beyond the original
dimensions still stays within the canvas bound on both axes. -/
theorem target_size_fits_canvas (cols rows maxWidth maxHeight : Nat)
    (hc : 0 < cols) (hr : 0 < rows) :
    (computeTargetSize cols rows maxWidth maxHeight).1 ≤ maxWidth ∧
    (computeTargetSize cols rows maxWidth maxHeight).2 ≤ maxHeight ∧
    ((computeTargetSize cols rows maxWidth maxHeight).2 =
        (computeTargetSize cols rows maxWidth maxHeight).1 * rows / cols ∨
      (computeTargetSize cols rows maxWidth maxHeight).1 =
        (computeTargetSize cols rows maxWidth maxHeight).2 * cols / rows) ∧
    ((cols < (computeTargetSize cols rows maxWidth maxHeight).1 ∨
        rows < (computeTargetSize cols rows maxWidth maxHeight).2) →
      (computeTargetSize cols rows maxWidth maxHeight).1 ≤ maxWidth ∧
      (computeTargetSize cols rows maxWidth maxHeight).2 ≤ maxHeight) := by
  by_cases hg : maxHeight < maxWidth * rows / cols
  · have hstep : (maxHeight + 1) * cols ≤ maxWidth * rows :=
      (Nat.le_div_iff_mul_le hc).mp (Nat.succ_le_of_lt hg)
    have hmul : maxHeight * cols ≤ maxWidth * rows :=
      le_trans (Nat.mul_le_mul_right cols (Nat.le_succ maxHeight)) hstep
    have hw : maxHeight * cols / rows ≤ maxWidth := by
      calc maxHeight * cols / rows ≤ maxWidth * rows / rows :=
            Nat.div_le_div_right hmul
        _ = maxWidth := Nat.mul_div_cancel maxWidth hr
    simp only [computeTargetSize, if_pos hg]
    exact ⟨hw, le_refl _, Or.inr (by trivial), fun _ => ⟨hw, le_refl _⟩⟩
  · have hh : maxWidth * rows / cols ≤ maxHeight := Nat.le_of_not_lt hg
    simp only [computeTargetSize, if_neg hg]
    exact ⟨le_refl _, hh, Or.inl (by trivial), fun _ => ⟨le_refl _, hh⟩⟩

/-- Witness for `target_size_fits_canvas` at the spec's 400×300 scenario on an
800×600 canvas. -/
theorem target_size_fits_canvas_witness :
    (computeTargetSize 400 300 800 600).1 ≤ 800 ∧
    (computeTargetSize 400 300 800 600).2 ≤ 600 ∧
    ((computeTargetSize 400 300 800 600).2 =
        (computeTargetSize 400 300 800 600).1 * 300 / 400 ∨
      (computeTargetSize 400 300 800 600).1 =
        (computeTargetSize 400 300 800 600).2 * 400 / 300) ∧
    ((400 < (computeTargetSize 400 300 800 600).1 ∨
        300 < (computeTargetSize 400 300 800 600).2) →
      (computeTargetSize 400 300 800 600).1 ≤ 800 ∧
      (computeTargetSize 400 300 800 600).2 ≤ 600) :=
  target_size_fits_canvas 400 300 800 600 (by decide) (by decide)

/-- C2 counterexample: re-running generation on a state that already holds a
baseline and one committed fill leaves three snapshots in the history, not
one — `addToColoringPageHistory` only ever appends, nothing clears the
vector.  The edited state is reached through the program's own operations. -/
theorem generate_history_size_counterexample :
    ((generateColoringPage
        (mouseDoubleClickEvent
          (toggleFillTool
            (generateColoringPage initialGenerator [[(255, 255, 255)]]) true)
          (0, 0)).1
        [[(255, 255, 255)]]).coloringPageHistory).length ≠ 1 := by decide

/-- C2 amended: each successful generation appends exactly one snapshot to the
history; the stack holds exactly one entry after generation precisely in the
case the history was empty beforehand, i.e. after the first generation. -/
theorem generate_appends_one_snapshot (st : ColoringPageGenerator)
    (page : Raster) :
    (generateColoringPage st page).coloringPageHistory.length =
      st.coloringPageHistory.length + 1 ∧
    (st.coloringPageHistory = [] →
      (generateColoringPage st page).coloringPageHistory.length = 1) := by
  constructor
  · simp [generateColoringPage, addToColoringPageHistory]
  · intro h
    simp [generateColoringPage, addToColoringPageHistory, h]

/-- Witness for `generate_appends_one_snapshot` on the first generation. -/
theorem generate_appends_one_snapshot_witness :
    (generateColoringPage initialGenerator
      [[(0, 0, 0)]]).coloringPageHistory.length = 1 :=
  (generate_appends_one_snapshot initialGenerator [[(0, 0, 0)]]).2 rfl

/-- C3: when the native flood fill faults, the double-click handler reports
the dialog text built from the native diagnostic and leaves the whole state —
working raster and history included — exactly as it was (lines 140-151: the
catch block only shows the message box). -/
theorem fill_fault_leaves_state_unchanged (st : ColoringPageGenerator)
    (pos : Int × Int) (msg : String)
    (h1 : st.drawingImage.isSome = true) (h2 : st.fillToolEnabled = true)
    (herr : floodFill st.coloringPage pos.1 pos.2 st.fillColor =
      Except.error msg) :
    mouseDoubleClickEvent st pos =
      (st, some ("Failed to perform flood fill: " ++ msg)) := by
  simp [mouseDoubleClickEvent, h1, h2, herr]

/-- Witness for `fill_fault_leaves_state_unchanged`: a double click outside
the raster (negative x) makes the fill fault and changes nothing. -/
theorem fill_fault_leaves_state_unchanged_witness :
    mouseDoubleClickEvent loadedState (-1, 0) =
      (loadedState,
        some ("Failed to perform flood fill: " ++
          "Seed point is outside of image")) :=
  fill_fault_leaves_state_unchanged loadedState (-1, 0)
    "Seed point is outside of image" rfl rfl (by rfl)

/-- C10: with no photo loaded (null drawingImage, lines 92 and 109/116/135,
and hence an empty history), pointer press, move, release, double click and
undo all return the state unchanged — fill color and tool mode included — and
no error message is produced. -/
theorem no_photo_all_events_noop (st : ColoringPageGenerator)
    (h1 : st.drawingImage = none) (h2 : st.coloringPageHistory = []) :
    (∀ b q, mousePressEvent st b q = st) ∧
    (∀ q, mouseMoveEvent st q = st) ∧
    (∀ b, mouseReleaseEvent st b = st) ∧
    (∀ q, mouseDoubleClickEvent st q = (st, none)) ∧
    undoLastAction st = st := by
  refine ⟨?_, ?_, ?_, ?_, ?_⟩
  · intro b q; simp [mousePressEvent, h1]
  · intro q; simp [mouseMoveEvent, h1]
  · intro b; simp [mouseReleaseEvent, h1]
  · intro q; simp [mouseDoubleClickEvent, h1]
  · simp [undoLastAction, h2]

/-- Witness for `no_photo_all_events_noop` at the constructor state. -/
theorem no_photo_all_events_noop_witness :
    undoLastAction initialGenerator = initialGenerator :=
  (no_photo_all_events_noop initialGenerator rfl rfl).2.2.2.2

/-- C4: with history `baseline :: cs ++ [cN]` (a baseline and N ≥ 1 commits),
one undo removes the top snapshot and makes the working raster the last
remaining snapshot — the raster committed at step N−1, or the baseline when
N = 1 (lines 289-296 of main.cpp). -/
theorem undo_restores_previous_commit (st : ColoringPageGenerator)
    (base cN : Raster) (cs : List Raster)
    (h : st.coloringPageHistory = (base :: cs) ++ [cN]) :
    (undoLastAction st).coloringPageHistory = base :: cs ∧
    (base :: cs).getLast? = some ((undoLastAction st).coloringPage) := by
  have hlen : 1 < st.coloringPageHistory.length := by
    rw [h]; simp
  unfold undoLastAction
  rw [if_pos hlen]
  simp only [h, List.dropLast_concat]
  exact ⟨by trivial, getLast?_eq_getLastD (base :: cs) st.coloringPage (by simp)⟩

/-- Witness for `undo_restores_previous_commit`: undo on a two-snapshot
history restores the baseline. -/
theorem undo_restores_previous_commit_witness :
    (undoLastAction twoSnapshotState).coloringPageHistory = [[[(1, 1, 1)]]] ∧
    ([[[(1, 1, 1)]]] : List Raster).getLast? =
      some ((undoLastAction twoSnapshotState).coloringPage) :=
  undo_restores_previous_commit twoSnapshotState [[(1, 1, 1)]] [[(2, 2, 2)]]
    [] rfl

/-- C6: undo with exactly the baseline snapshot left is a complete no-op (the
guard on line 290 fails, so nothing happens and nothing can fault), and every
operation of the program preserves nonemptiness of the history once at least
one snapshot exists. -/
theorem history_nonempty_and_baseline_undo_noop (st : ColoringPageGenerator) :
    (st.coloringPageHistory.length = 1 → undoLastAction st = st) ∧
    (1 ≤ st.coloringPageHistory.length →
      1 ≤ (undoLastAction st).coloringPageHistory.length ∧
      (∀ q, 1 ≤ ((mouseDoubleClickEvent st q).1).coloringPageHistory.length) ∧
      (∀ q, 1 ≤ (mouseMoveEvent st q).coloringPageHistory.length) ∧
      (∀ b q, 1 ≤ (mousePressEvent st b q).coloringPageHistory.length) ∧
      (∀ b, 1 ≤ (mouseReleaseEvent st b).coloringPageHistory.length) ∧
      (∀ g, 1 ≤ (generateColoringPage st g).coloringPageHistory.length)) := by
  constructor
  · intro h1
    unfold undoLastAction
    rw [if_neg (by omega)]
  · intro hne
    refine ⟨?_, ?_, ?_, ?_, ?_, ?_⟩
    · unfold undoLastAction
      split
      · simp only [List.length_dropLast]; omega
      · exact hne
    · intro q
      rcases mouseDoubleClickEvent_history st q with h | ⟨page, h⟩
      · rw [h]; exact hne
      · rw [h, List.length_append]; omega
    · intro q; rw [mouseMoveEvent_history]; exact hne
    · intro b q
      unfold mousePressEvent
      split <;> exact hne
    · intro b
      unfold mouseReleaseEvent
      split <;> exact hne
    · intro g
      simp [generateColoringPage, addToColoringPageHistory]

/-- Witness for `history_nonempty_and_baseline_undo_noop` at a one-snapshot
state. -/
theorem history_nonempty_and_baseline_undo_noop_witness :
    undoLastAction loadedState = loadedState :=
  (history_nonempty_and_baseline_undo_noop loadedState).1 rfl

/-- C8: a drag gesture of any length leaves the history byte-identical, so an
undo issued after the drawing is the same undo as before it: it pops the last
committed snapshot and restores the one below, silently discarding the
freehand strokes (which lived only in the working raster). -/
theorem draw_gesture_no_history_commit (st : ColoringPageGenerator)
    (ps : List (Int × Int)) :
    (applyMoves st ps).coloringPageHistory = st.coloringPageHistory ∧
    (1 < st.coloringPageHistory.length →
      (undoLastAction (applyMoves st ps)).coloringPage =
        (undoLastAction st).coloringPage ∧
      (undoLastAction (applyMoves st ps)).coloringPageHistory =
        (undoLastAction st).coloringPageHistory) := by
  have hh := applyMoves_history st ps
  refine ⟨hh, fun hlen => ?_⟩
  have hlen2 : 1 < (applyMoves st ps).coloringPageHistory.length := by
    rw [hh]; exact hlen
  unfold undoLastAction
  rw [if_pos hlen2, if_pos hlen]
  simp only [hh]
  refine ⟨?_, by trivial⟩
  apply getLastD_congr
  have : 0 < st.coloringPageHistory.dropLast.length := by
    simp only [List.length_dropLast]; omega
  exact List.ne_nil_of_length_pos this

/-- Witness for `draw_gesture_no_history_commit`: one drawing segment on a
two-snapshot state, then undo. -/
theorem draw_gesture_no_history_commit_witness :
    (undoLastAction (applyMoves twoSnapshotState [(0, 0)])).coloringPage =
      (undoLastAction twoSnapshotState).coloringPage :=
  ((draw_gesture_no_history_commit twoSnapshotState [(0, 0)]).2
    (by decide)).1

/-- C5: history snapshots behave as independent deep copies.  Immediately
after a successful fill commit, after a generation commit, and after an undo,
the top of the stack equals the working raster; freehand drawing never changes
any stored snapshot; and a fill only ever appends to the stack, leaving every
previously stored snapshot in place. -/
theorem history_snapshots_independent (st : ColoringPageGenerator)
    (pos : Int × Int) (page : Raster)
    (h1 : st.drawingImage.isSome = true) (h2 : st.fillToolEnabled = true)
    (h3 : floodFill st.coloringPage pos.1 pos.2 st.fillColor =
      Except.ok page) :
    ((mouseDoubleClickEvent st pos).1).coloringPageHistory.getLast? =
      some ((mouseDoubleClickEvent st pos).1).coloringPage ∧
    (∀ g, (generateColoringPage st g).coloringPageHistory.getLast? =
      some (generateColoringPage st g).coloringPage) ∧
    (1 < st.coloringPageHistory.length →
      (undoLastAction st).coloringPageHistory.getLast? =
        some ((undoLastAction st).coloringPage)) ∧
    (∀ ps, (applyMoves st ps).coloringPageHistory =
      st.coloringPageHistory) ∧
    (∀ q, ∃ tl, ((mouseDoubleClickEvent st q).1).coloringPageHistory =
      st.coloringPageHistory ++ tl) := by
  refine ⟨?_, ?_, ?_, ?_, ?_⟩
  · simp [mouseDoubleClickEvent, h1, h2, h3, addToColoringPageHistory]
  · intro g
    simp [generateColoringPage, addToColoringPageHistory]
  · intro hlen
    unfold undoLastAction
    rw [if_pos hlen]
    have hne : st.coloringPageHistory.dropLast ≠ [] := by
      apply List.ne_nil_of_length_pos
      simp only [List.length_dropLast]; omega
    exact getLast?_eq_getLastD _ st.coloringPage hne
  · exact applyMoves_history st
  · intro q
    rcases mouseDoubleClickEvent_history st q with h | ⟨p2, h⟩
    · exact ⟨[], by rw [h, List.append_nil]⟩
    · exact ⟨[p2], h⟩

/-- Witness for `history_snapshots_independent`: a successful fill on the
loaded one-snapshot state. -/
theorem history_snapshots_independent_witness :
    ((mouseDoubleClickEvent loadedState (0, 0)).1).coloringPageHistory.getLast?
      = some ((mouseDoubleClickEvent loadedState (0, 0)).1).coloringPage :=
  (history_snapshots_independent loadedState (0, 0) [[(9, 9, 9)]] rfl rfl
    (by rfl)).1

/-- C1 counterexample: a 1×1 image whose single pixel is set in the raw
threshold mask but not in the filled/closed contour mask.  The code renders it
black (line 242 keys only on `binaryImage`), while the claimed intersection
would render it white — the intersected raster built on line 239 is discarded
by the reassignment on line 241. -/
theorem render_intersection_counterexample :
    renderFinalOutput 1 1 [[255]] [[0]] [[255]] ≠
      renderSpecIntersection 1 1 [[255]] [[0]] := by decide

/-- Pixel lookup through one row of `setTo` over a constant white row. -/
theorem setTo_row_getD (mrow : List Nat) (w j : Nat)
    (hw : mrow.length = w) (hj : j < w) :
    (List.zipWith (fun v m => if m ≠ 0 then ((0, 0, 0) : Pixel) else v)
        (List.replicate w ((255, 255, 255) : Pixel)) mrow).getD j (0, 0, 0) =
      if mrow.getD j 0 ≠ 0 then (0, 0, 0) else (255, 255, 255) := by
  induction mrow generalizing w j with
  | nil => subst hw; simp at hj
  | cons m ms ih =>
    subst hw
    simp only [List.length_cons] at hj ⊢
    rw [List.replicate_succ]
    cases j with
    | zero => simp
    | succ j =>
      simp only [List.zipWith_cons_cons, List.getD_cons_succ]
      exact ih ms.length j rfl (by omega)

/-- Pixel lookup through `setTo` of the white page against a mask. -/
theorem setTo_mkRaster_get (bi : Mask) (w : Nat)
    (hrow : ∀ row ∈ bi, row.length = w) (i j : Nat)
    (hi : i < bi.length) (hj : j < w) :
    getPixel (setTo (mkRaster w bi.length (255, 255, 255)) (0, 0, 0) bi) i j =
      if getM bi i j ≠ 0 then (0, 0, 0) else (255, 255, 255) := by
  induction bi generalizing i with
  | nil => simp at hi
  | cons mrow rest ih =>
    show getPixel (setTo (mkRaster w (rest.length + 1) (255, 255, 255))
      (0, 0, 0) (mrow :: rest)) i j = _
    unfold mkRaster setTo
    rw [List.replicate_succ]
    cases i with
    | zero =>
      simp only [List.zipWith_cons_cons]
      unfold getPixel getM
      simp only [List.getD_cons_zero]
      exact setTo_row_getD mrow w j (hrow mrow (by simp)) hj
    | succ i =>
      simp only [List.zipWith_cons_cons]
      unfold getPixel getM
      simp only [List.getD_cons_succ]
      have := ih (fun row hr => hrow row (by simp [hr])) i (by
        simpa using hi)
      unfold mkRaster setTo getPixel getM at this
      exact this

/-- C1 amended: in the final render (lines 232-242, before gap repair) a pixel
is black exactly when it is set in the raw adaptive-threshold mask of step 3
and white otherwise; the intersection with the filled/closed contour mask is
computed but discarded, so the output is independent of the contour mask and
of the outline raster it is intersected into. -/
theorem render_black_iff_raw_threshold (w h : Nat)
    (outline1 outline2 cm1 cm2 bi : Mask)
    (hlen : bi.length = h) (hrow : ∀ row ∈ bi, row.length = w)
    (i j : Nat) (hi : i < h) (hj : j < w) :
    renderFinalOutput w h outline1 cm1 bi =
      renderFinalOutput w h outline2 cm2 bi ∧
    (getPixel (renderFinalOutput w h outline1 cm1 bi) i j = (0, 0, 0) ↔
      getM bi i j ≠ 0) ∧
    (getM bi i j = 0 →
      getPixel (renderFinalOutput w h outline1 cm1 bi) i j =
        (255, 255, 255)) := by
  subst hlen
  have hget := setTo_mkRaster_get bi w hrow i j hi hj
  refine ⟨rfl, ?_, ?_⟩
  · show getPixel (setTo (mkRaster w bi.length (255, 255, 255))
      (0, 0, 0) bi) i j = (0, 0, 0) ↔ getM bi i j ≠ 0
    rw [hget]
    by_cases hb : getM bi i j = 0 <;> simp [hb]
  · intro hb
    show getPixel (setTo (mkRaster w bi.length (255, 255, 255))
      (0, 0, 0) bi) i j = (255, 255, 255)
    rw [hget]
    simp [hb]

/-- Witness for `render_black_iff_raw_threshold` on a 1×1 image with the raw
threshold mask set and the contour mask clear. -/
theorem render_black_iff_raw_threshold_witness :
    getPixel (renderFinalOutput 1 1 [[7]] [[0]] [[255]]) 0 0 = (0, 0, 0) :=
  ((render_black_iff_raw_threshold 1 1 [[7]] [[9]] [[0]] [[4]] [[255]] rfl
    (by decide) 0 0 (by decide) (by decide)).2.1).mpr (by decide)

/-- One expansion step only adds pixels with the seed's color. -/
theorem floodStep_color (r : Raster) (seedc : Pixel) (S : Nat → Nat → Bool)
    (h : ∀ i j, S i j = true → getPixel r i j = seedc) :
    ∀ i j, floodStep r seedc S i j = true → getPixel r i j = seedc := by
  intro i j hij
  unfold floodStep at hij
  simp only [Bool.or_eq_true, Bool.and_eq_true, decide_eq_true_eq] at hij
  rcases hij with h1 | ⟨⟨⟨_, _⟩, hc⟩, _⟩
  · exact h i j h1
  · exact hc

/-- Iterated expansion only adds pixels with the seed's color. -/
theorem floodIter_color (r : Raster) (seedc : Pixel) :
    ∀ (n : Nat) (S : Nat → Nat → Bool),
      (∀ i j, S i j = true → getPixel r i j = seedc) →
      ∀ i j, floodIter r seedc n S i j = true → getPixel r i j = seedc := by
  intro n
  induction n with
  | zero => intro S h; exact h
  | succ n ih => intro S h; exact ih _ (floodStep_color r seedc S h)

/-- Every pixel of the flood region has the seed's color. -/
theorem floodRegion_color (r : Raster) (i0 j0 : Nat) :
    ∀ i j, floodRegion r i0 j0 i j = true →
      getPixel r i j = getPixel r i0 j0 := by
  apply floodIter_color
  intro i j h
  simp only [Bool.and_eq_true, decide_eq_true_eq] at h
  rw [h.1, h.2]

/-- The expansion step keeps every pixel already in the region. -/
theorem floodStep_le (r : Raster) (seedc : Pixel) (S : Nat → Nat → Bool)
    (i j : Nat) (h : S i j = true) : floodStep r seedc S i j = true := by
  unfold floodStep
  rw [h, Bool.true_or]

/-- Iterated expansion keeps every pixel already in the region. -/
theorem floodIter_le (r : Raster) (seedc : Pixel) :
    ∀ (n : Nat) (S : Nat → Nat → Bool) (i j : Nat),
      S i j = true → floodIter r seedc n S i j = true := by
  intro n
  induction n with
  | zero => intro S i j h; exact h
  | succ n ih => intro S i j h; exact ih _ i j (floodStep_le r seedc S i j h)

/-- The seed always belongs to its flood region. -/
theorem floodRegion_seed (r : Raster) (i0 j0 : Nat) :
    floodRegion r i0 j0 i0 j0 = true := by
  apply floodIter_le
  simp

/-- Recoloring a row preserves its length. -/
theorem applyFillRow_length (c : Pixel) (S : Nat → Bool) :
    ∀ (row : List Pixel) (j0 : Nat),
      (applyFillRow c S row j0).length = row.length := by
  intro row
  induction row with
  | nil => intro j0; rfl
  | cons v vs ih =>
    intro j0
    show (applyFillRow c S vs (j0 + 1)).length + 1 = vs.length + 1
    rw [ih]

/-- Recoloring preserves the number of rows. -/
theorem applyFillRows_length (c : Pixel) (S : Nat → Nat → Bool) :
    ∀ (rows : List (List Pixel)) (i0 : Nat),
      (applyFillRows c S rows i0).length = rows.length := by
  intro rows
  induction rows with
  | nil => intro i0; rfl
  | cons row rest ih =>
    intro i0
    show (applyFillRows c S rest (i0 + 1)).length + 1 = rest.length + 1
    rw [ih]

/-- Recoloring preserves the column count. -/
theorem applyFill_width (r : Raster) (S : Nat → Nat → Bool) (c : Pixel) :
    rasterWidth (applyFill r S c) = rasterWidth r := by
  cases r with
  | nil => rfl
  | cons row rest =>
    show (applyFillRow c (S 0) row 0).length = row.length
    exact applyFillRow_length c (S 0) row 0

/-- A recolored cell inside the row holds the fill color. -/
theorem applyFillRow_getD_written (c : Pixel) (S : Nat → Bool) :
    ∀ (row : List Pixel) (j0 k : Nat), k < row.length →
      S (j0 + k) = true → (applyFillRow c S row j0).getD k (0, 0, 0) = c := by
  intro row
  induction row with
  | nil => intro j0 k hk; simp at hk
  | cons v vs ih =>
    intro j0 k hk hS
    cases k with
    | zero =>
      rw [Nat.add_zero] at hS
      show ((if S j0 then c else v) :: applyFillRow c S vs (j0 + 1)).getD
        0 (0, 0, 0) = c
      rw [List.getD_cons_zero, hS]
      rfl
    | succ k =>
      show ((if S j0 then c else v) :: applyFillRow c S vs (j0 + 1)).getD
        (k + 1) (0, 0, 0) = c
      rw [List.getD_cons_succ]
      refine ih (j0 + 1) k (by simp at hk; omega) ?_
      rw [← hS]
      congr 1
      omega

/-- A recolored cell inside the grid holds the fill color. -/
theorem applyFillRows_getPixel_written (c : Pixel) (S : Nat → Nat → Bool) :
    ∀ (rows : List (List Pixel)) (i0 di j : Nat), di < rows.length →
      j < (rows.getD di []).length → S (i0 + di) j = true →
      getPixel (applyFillRows c S rows i0) di j = c := by
  intro rows
  induction rows with
  | nil => intro i0 di j hdi; simp at hdi
  | cons row rest ih =>
    intro i0 di j hdi hj hS
    cases di with
    | zero =>
      rw [Nat.add_zero] at hS
      show ((applyFillRow c (S i0) row 0 :: applyFillRows c S rest (i0 + 1)).getD
        0 []).getD j (0, 0, 0) = c
      rw [List.getD_cons_zero]
      rw [List.getD_cons_zero] at hj
      exact applyFillRow_getD_written c (S i0) row 0 j hj
        (by rwa [Nat.zero_add])
    | succ di =>
      show ((applyFillRow c (S i0) row 0 :: applyFillRows c S rest (i0 + 1)).getD
        (di + 1) []).getD j (0, 0, 0) = c
      rw [List.getD_cons_succ]
      rw [List.getD_cons_succ] at hj
      refine ih (i0 + 1) di j (by simp at hdi; omega) hj ?_
      rw [← hS]
      congr 1
      omega

/-- Recoloring with `c` a region all of whose in-row cells already hold `c`
changes nothing in the row. -/
theorem applyFillRow_id (c : Pixel) (S : Nat → Bool) :
    ∀ (row : List Pixel) (j0 : Nat),
      (∀ k, k < row.length → S (j0 + k) = true →
        row.getD k (0, 0, 0) = c) →
      applyFillRow c S row j0 = row := by
  intro row
  induction row with
  | nil => intro j0 _; rfl
  | cons v vs ih =>
    intro j0 h
    show (if S j0 then c else v) :: applyFillRow c S vs (j0 + 1) = v :: vs
    congr 1
    · by_cases hS : S j0 = true
      · rw [hS, if_pos rfl]
        have := h 0 (by simp) (by rwa [Nat.add_zero])
        rw [List.getD_cons_zero] at this
        exact this.symm
      · simp at hS
        rw [hS]
        rfl
    · refine ih (j0 + 1) fun k hk hS => ?_
      have := h (k + 1) (by simp; omega) (by rw [← hS]; congr 1; omega)
      rwa [List.getD_cons_succ] at this

/-- Recoloring with `c` a region all of whose in-grid cells already hold `c`
changes nothing in the grid. -/
theorem applyFillRows_id (c : Pixel) (S : Nat → Nat → Bool) :
    ∀ (rows : List (List Pixel)) (i0 : Nat),
      (∀ di j, di < rows.length → j < (rows.getD di []).length →
        S (i0 + di) j = true → getPixel rows di j = c) →
      applyFillRows c S rows i0 = rows := by
  intro rows
  induction rows with
  | nil => intro i0 _; rfl
  | cons row rest ih =>
    intro i0 h
    show applyFillRow c (S i0) row 0 :: applyFillRows c S rest (i0 + 1) =
      row :: rest
    congr 1
    · refine applyFillRow_id c (S i0) row 0 fun k hk hS => ?_
      have := h 0 k (by simp) (by rwa [List.getD_cons_zero])
        (by rw [Nat.add_zero]; rwa [Nat.zero_add] at hS)
      unfold getPixel at this
      rwa [List.getD_cons_zero] at this
    · refine ih (i0 + 1) fun di j hdi hj hS => ?_
      have := h (di + 1) j (by simp; omega) (by rwa [List.getD_cons_succ])
        (by rw [← hS]; congr 1; omega)
      unfold getPixel at this ⊢
      rwa [List.getD_cons_succ] at this

/-- C9: region fill is idempotent.  If flood fill at an in-bounds seed
succeeds on a rectangular raster (every cv::Mat is rectangular), running the
same fill again with the same seed and color on the result returns that very
raster: the second region consists of pixels that already carry the fill
color, so repainting them changes nothing. -/
theorem floodFill_idempotent (r : Raster) (x y : Int) (c : Pixel) (r2 : Raster)
    (hrect : ∀ row ∈ r, row.length = rasterWidth r)
    (h : floodFill r x y c = Except.ok r2) :
    floodFill r2 x y c = Except.ok r2 := by
  unfold floodFill at h ⊢
  by_cases hb : 0 ≤ x ∧ x < (rasterWidth r : Int) ∧ 0 ≤ y ∧
      y < (r.length : Int)
  · rw [if_pos hb] at h
    obtain ⟨hx0, hx1, hy0, hy1⟩ := hb
    have happ : applyFill r (floodRegion r y.toNat x.toNat) c = r2 :=
      Except.ok.inj h
    have hlen : r2.length = r.length := by
      rw [← happ]
      exact applyFillRows_length c _ r 0
    have hwid : rasterWidth r2 = rasterWidth r := by
      rw [← happ]
      exact applyFill_width r _ c
    have hb2 : 0 ≤ x ∧ x < (rasterWidth r2 : Int) ∧ 0 ≤ y ∧
        y < (r2.length : Int) := by
      refine ⟨hx0, ?_, hy0, ?_⟩
      · rw [hwid]; exact hx1
      · rw [hlen]; exact hy1
    rw [if_pos hb2]
    have hi0 : y.toNat < r.length := by omega
    have hj0 : x.toNat < rasterWidth r := by omega
    have hrowlen : (r.getD y.toNat []).length = rasterWidth r := by
      apply hrect
      rw [List.getD_eq_getElem r [] hi0]
      exact List.getElem_mem hi0
    have hseed : getPixel r2 y.toNat x.toNat = c := by
      rw [← happ]
      exact applyFillRows_getPixel_written c _ r 0 y.toNat x.toNat hi0
        (by rw [hrowlen]; exact hj0)
        (by rw [Nat.zero_add]; exact floodRegion_seed r y.toNat x.toNat)
    congr 1
    unfold applyFill
    apply applyFillRows_id
    intro di j _ _ hS
    rw [Nat.zero_add] at hS
    have hcol := floodRegion_color r2 y.toNat x.toNat di j hS
    rw [hcol, hseed]
  · rw [if_neg hb] at h
    exact absurd h (by simp)

/-- Witness for `floodFill_idempotent`: a successful 1×1 fill, repeated. -/
theorem floodFill_idempotent_witness :
    floodFill [[(9, 9, 9)]] 0 0 (9, 9, 9) = Except.ok [[(9, 9, 9)]] :=
  floodFill_idempotent [[(1, 2, 3)]] 0 0 (9, 9, 9) [[(9, 9, 9)]]
    (by decide) (by rfl)
